import Mathlib

/-!
# Payroll engine: net-pay calculation and anomaly detection

Shallow embedding of the payroll engine of the Employee-base-System
repository: `calculateNetPay` (with its helpers `calculateIncomeTax` and
`calculateSlabTax`) from `route/calculate_employee_netpay.js`, and the three
anomaly-detection strategies plus the batch report builder
(`detectHistoricalVariance`, `detectPeerVariance`, `detectAbsoluteRules`,
`detectAnomalies`) from `route/check_payroll_anomaly.js`.

JS numbers are modelled as exact rationals (`ℚ`).  The one place where the
engine can produce a non-finite number from finite, well-typed inputs — the
division by the historical average in `detectHistoricalVariance` — is
modelled faithfully with a `JSNum` type carrying `±Infinity` and `NaN`.
A second, "raw" model (`rawCalculateNetPay`) keeps every record field and
every rule-table section optional and reproduces JS coercion of `undefined`
to `NaN` together with the thrown errors, so the guard-clause and
missing-field behaviour of the source can be settled exactly.
`Array.prototype.find` and `Array.prototype.filter` are embedded as
first-match and keep-order recursions over `List`.
-/

namespace Payroll

/-- An income-tax slab `{min, max, rate}` from the rule table. -/
structure Slab where
  min : ℚ
  max : ℚ
  rate : ℚ
deriving DecidableEq, Repr

/-- A professional-tax slab `{min, max, tax}` carrying a flat amount. -/
structure PTSlab where
  min : ℚ
  max : ℚ
  tax : ℚ
deriving DecidableEq, Repr

/-- The `professional_tax` section: location-keyed slab tables plus the
`default` table (the `default` JSON key, separated from the keyed entries so
that the two-step lookup of the source is explicit). -/
structure PTTable where
  tables : List (String × List PTSlab)
  default : List PTSlab
deriving DecidableEq, Repr

/-- A fully loaded rule table (`tax_rules.json` after a successful parse). -/
structure RuleTable where
  social_security_percent : ℚ
  income_tax_slabs : List Slab
  professional_tax : PTTable
deriving DecidableEq, Repr

/-- A well-typed employee record: every required field present and the
numeric fields actual numbers. -/
structure Employee where
  employee_id : String
  name : String
  department : String
  location : String
  salary : ℚ
  bonus : ℚ
  deductions : ℚ
deriving DecidableEq, Repr

/-- `slabs.find(slab => grossPay >= slab.min && grossPay <= slab.max)`:
first slab whose inclusive `[min,max]` range contains the gross pay. -/
def findSlab (grossPay : ℚ) : List Slab → Option Slab
  | [] => none
  | slab :: rest =>
    if slab.min ≤ grossPay ∧ grossPay ≤ slab.max then some slab
    else findSlab grossPay rest

/-- The same first-match search over flat-amount slabs. -/
def findPTSlab (grossPay : ℚ) : List PTSlab → Option PTSlab
  | [] => none
  | slab :: rest =>
    if slab.min ≤ grossPay ∧ grossPay ≤ slab.max then some slab
    else findPTSlab grossPay rest

/-- `calculateIncomeTax(grossPay, slabs)`: charge `grossPay * rate` of the
single applicable slab, 0 when no slab matches. -/
def calculateIncomeTax (grossPay : ℚ) (slabs : List Slab) : ℚ :=
  match findSlab grossPay slabs with
  | some slab => grossPay * slab.rate
  | none => 0

/-- `calculateSlabTax(grossPay, slabs)`: the applicable slab's flat `tax`
amount, 0 when no slab matches. -/
def calculateSlabTax (grossPay : ℚ) (slabs : List PTSlab) : ℚ :=
  match findPTSlab grossPay slabs with
  | some slab => slab.tax
  | none => 0

/-- JS bracket lookup `professional_tax[location]` over the keyed tables. -/
def lookupLocation : List (String × List PTSlab) → String → Option (List PTSlab)
  | [], _ => none
  | p :: rest, loc => if p.1 = loc then some p.2 else lookupLocation rest loc

/-- The `breakdown` object of a net-pay result. -/
structure Breakdown where
  company_tax : ℚ
  social_security : ℚ
  professional_tax : ℚ
  personal_deductions : ℚ
  total_deductions : ℚ
deriving DecidableEq, Repr

/-- The value returned by `calculateNetPay`. -/
structure NetPayResult where
  employee_id : String
  gross_pay : ℚ
  net_pay : ℚ
  breakdown : Breakdown
deriving DecidableEq, Repr

/-- `calculateNetPay(employee)` on a well-typed employee and a loaded rule
table (the happy path of the source; the guard clauses and the JS coercion
of missing data are modelled separately by `rawCalculateNetPay`).  The rule
table is an explicit argument standing for the module-level `TAX_RULES`. -/
def calculateNetPay (rules : RuleTable) (employee : Employee) : NetPayResult :=
  let grossPay := employee.salary + employee.bonus
  let companyTax := calculateIncomeTax grossPay rules.income_tax_slabs
  let socialSecurity := grossPay * rules.social_security_percent
  let locationRules :=
    (lookupLocation rules.professional_tax.tables employee.location).getD
      rules.professional_tax.default
  let professionalTax := calculateSlabTax grossPay locationRules
  let personalDeductions := employee.deductions
  let totalDeductions := companyTax + socialSecurity + professionalTax + personalDeductions
  let netPay := grossPay - totalDeductions
  { employee_id := employee.employee_id
    gross_pay := grossPay
    net_pay := netPay
    breakdown :=
      { company_tax := companyTax
        social_security := socialSecurity
        professional_tax := professionalTax
        personal_deductions := personalDeductions
        total_deductions := totalDeductions } }

/-! ## JS special-value arithmetic

Only the fragments of IEEE-style JS number semantics the engine can reach
are needed: coercion of `undefined` to `NaN`, arithmetic that propagates
`NaN`, division by zero producing `±Infinity` or `NaN`, and comparisons
that are false whenever `NaN` is involved.  (Exact rationals stand in for
finite doubles; rounding is irrelevant to every claim.) -/

/-- A JS number: a finite value, `±Infinity`, or `NaN`. -/
inductive JSNum where
  | num (q : ℚ)
  | posInf
  | negInf
  | nan
deriving DecidableEq, Repr

namespace JSNum

/-- JS addition. -/
def add : JSNum → JSNum → JSNum
  | nan, _ => nan
  | _, nan => nan
  | posInf, negInf => nan
  | negInf, posInf => nan
  | posInf, _ => posInf
  | _, posInf => posInf
  | negInf, _ => negInf
  | _, negInf => negInf
  | num a, num b => num (a + b)

/-- JS negation. -/
def neg : JSNum → JSNum
  | num a => num (-a)
  | posInf => negInf
  | negInf => posInf
  | nan => nan

/-- JS subtraction. -/
def sub (a b : JSNum) : JSNum := a.add b.neg

/-- JS multiplication (`0 * ±Infinity = NaN`). -/
def mul : JSNum → JSNum → JSNum
  | nan, _ => nan
  | _, nan => nan
  | num a, num b => num (a * b)
  | num a, posInf => if 0 < a then posInf else if a < 0 then negInf else nan
  | num a, negInf => if 0 < a then negInf else if a < 0 then posInf else nan
  | posInf, num b => if 0 < b then posInf else if b < 0 then negInf else nan
  | negInf, num b => if 0 < b then negInf else if b < 0 then posInf else nan
  | posInf, posInf => posInf
  | posInf, negInf => negInf
  | negInf, posInf => negInf
  | negInf, negInf => posInf

/-- JS division: a nonzero finite value divided by zero gives `±Infinity`,
`0 / 0` gives `NaN` (there is no negative zero in the rational model). -/
def div : JSNum → JSNum → JSNum
  | nan, _ => nan
  | _, nan => nan
  | num a, num b =>
    if b = 0 then (if 0 < a then posInf else if a < 0 then negInf else nan)
    else num (a / b)
  | num _, posInf => num 0
  | num _, negInf => num 0
  | posInf, num b => if 0 ≤ b then posInf else negInf
  | negInf, num b => if 0 ≤ b then negInf else posInf
  | posInf, _ => nan
  | negInf, _ => nan

/-- `Math.abs`. -/
def absJ : JSNum → JSNum
  | num a => num |a|
  | posInf => posInf
  | negInf => posInf
  | nan => nan

/-- JS `>`: false whenever `NaN` is involved. -/
def gtJ : JSNum → JSNum → Bool
  | nan, _ => false
  | _, nan => false
  | num a, num b => if b < a then true else false
  | posInf, posInf => false
  | posInf, _ => true
  | negInf, _ => false
  | num _, posInf => false
  | num _, negInf => true

/-- JS `>=`: false whenever `NaN` is involved. -/
def geJ : JSNum → JSNum → Bool
  | nan, _ => false
  | _, nan => false
  | num a, num b => if b ≤ a then true else false
  | posInf, _ => true
  | negInf, negInf => true
  | negInf, _ => false
  | num _, posInf => false
  | num _, negInf => true

/-- JS `<=` (`a <= b` agrees with `b >= a`, also on `NaN`). -/
def leJ (a b : JSNum) : Bool := b.geJ a

end JSNum

/-! ## Anomaly detection (`route/check_payroll_anomaly.js`) -/

/-- One record of `payroll_history.json` (only the fields the engine
reads). -/
structure HistoryRecord where
  employee_id : String
  net_pay : ℚ
deriving DecidableEq, Repr

/-- Flag severity levels. -/
inductive FlagLevel where
  | REVIEW
  | ANOMALY
deriving DecidableEq, Repr

/-- A detection flag.  The human-readable `reason` string of the source is
display-only interpolation of already-modelled values and is not
modelled. -/
structure Flag where
  level : FlagLevel
deriving DecidableEq, Repr

/-- `historyDB.filter(h => h.employee_id === employee.employee_id)`. -/
def filterHistory (eid : String) : List HistoryRecord → List HistoryRecord
  | [] => []
  | h :: rest =>
    if h.employee_id = eid then h :: filterHistory eid rest
    else filterHistory eid rest

/-- `detectHistoricalVariance(employee, proposedPay, historyDB)`.  The
division `(current - avg) / avg` is JS division, modelled with `JSNum.div`
so that a zero average produces an infinite or `NaN` ratio exactly as the
source does (the source has no guard for it). -/
def detectHistoricalVariance (employee : Employee) (proposedPay : NetPayResult)
    (historyDB : List HistoryRecord) : List Flag :=
  let employeeHistory := filterHistory employee.employee_id historyDB
  if employeeHistory.length < 3 then []
  else
    let recentHistory := employeeHistory.take 6
    let total := recentHistory.foldl (fun acc record => acc + record.net_pay) 0
    let avgHistoryNetPay := total / (recentHistory.length : ℚ)
    let currentNetPay := proposedPay.net_pay
    let percentChange :=
      JSNum.div (.num (currentNetPay - avgHistoryNetPay)) (.num avgHistoryNetPay)
    if percentChange.absJ.gtJ (.num 0.5) then [{ level := FlagLevel.ANOMALY }]
    else if percentChange.absJ.gtJ (.num 0.2) then [{ level := FlagLevel.REVIEW }]
    else []

/-- The peer-group filter of `detectPeerVariance`: same department, same
location, and not the employee itself (by `employee_id`). -/
def peersOf (employee : Employee) : List Employee → List Employee
  | [] => []
  | p :: rest =>
    if p.department = employee.department ∧ p.location = employee.location ∧
        p.employee_id ≠ employee.employee_id then
      p :: peersOf employee rest
    else peersOf employee rest

/-- `detectPeerVariance(employee, proposedPayroll)`: compare the salary to
the average salary of the peer group. -/
def detectPeerVariance (employee : Employee) (proposedPayroll : List Employee) :
    List Flag :=
  let peerGroup := peersOf employee proposedPayroll
  if peerGroup.length < 1 then []
  else
    let total := peerGroup.foldl (fun acc p => acc + p.salary) 0
    let avgPeerSalary := total / (peerGroup.length : ℚ)
    let currentSalary := employee.salary
    if currentSalary > avgPeerSalary * 3 then [{ level := FlagLevel.ANOMALY }]
    else if currentSalary > avgPeerSalary * 1.5 then [{ level := FlagLevel.REVIEW }]
    else []

/-- `detectAbsoluteRules(employee, proposedPay)`: the two independent
sanity checks, pushed in source order. -/
def detectAbsoluteRules (employee : Employee) (proposedPay : NetPayResult) :
    List Flag :=
  (if proposedPay.net_pay < 0 then [{ level := FlagLevel.ANOMALY }] else []) ++
  (if employee.bonus > employee.salary * 2 then [{ level := FlagLevel.REVIEW }] else [])

/-- Overall report status. -/
inductive ReportStatus where
  | CLEAN
  | REVIEW_REQUIRED
  | ANOMALY_DETECTED
deriving DecidableEq, Repr

/-- A `{employee_id, name, flags}` entry of the report. -/
structure FlagGroup where
  employee_id : String
  name : String
  flags : List Flag
deriving DecidableEq, Repr

/-- The report built by `detectAnomalies`, without the wall-clock
`pay_period` field (computed from `new Date()` in the source and irrelevant
to the flag and status logic). -/
structure Report where
  status : ReportStatus
  report : List FlagGroup
deriving DecidableEq, Repr

/-- The flag list the `detectAnomalies` loop computes for one employee: the
three strategies concatenated in source order, with the proposed pay coming
from `calculateNetPay`. -/
def employeeFlags (rules : RuleTable) (historyDB : List HistoryRecord)
    (proposedPayroll : List Employee) (employee : Employee) : List Flag :=
  detectHistoricalVariance employee (calculateNetPay rules employee) historyDB ++
  detectPeerVariance employee proposedPayroll ++
  detectAbsoluteRules employee (calculateNetPay rules employee)

/-- The `allFlags` accumulator of `detectAnomalies`: one entry per employee
whose flag list is non-empty, in batch order. -/
def allFlagGroups (rules : RuleTable) (historyDB : List HistoryRecord)
    (proposedPayroll : List Employee) : List Employee → List FlagGroup
  | [] => []
  | e :: rest =>
    let flags := employeeFlags rules historyDB proposedPayroll e
    let acc := allFlagGroups rules historyDB proposedPayroll rest
    if flags.length > 0 then
      { employee_id := e.employee_id, name := e.name, flags := flags } :: acc
    else acc

/-- `allFlags.some(f => f.flags.some(fl => fl.level === "ANOMALY"))`. -/
def anyAnomaly (groups : List FlagGroup) : Bool :=
  groups.any (fun f => f.flags.any (fun fl => fl.level == FlagLevel.ANOMALY))

/-- `detectAnomalies(proposedPayroll)`: run every strategy over every
employee and compute the overall status with the
ANOMALY_DETECTED > REVIEW_REQUIRED > CLEAN precedence.  The history
database and the rule table consumed by `calculateNetPay` are explicit
arguments standing for the file-backed globals of the source. -/
def detectAnomalies (rules : RuleTable) (historyDB : List HistoryRecord)
    (proposedPayroll : List Employee) : Report :=
  let allFlags := allFlagGroups rules historyDB proposedPayroll proposedPayroll
  let overallStatus :=
    if anyAnomaly allFlags then ReportStatus.ANOMALY_DETECTED
    else if allFlags.length > 0 then ReportStatus.REVIEW_REQUIRED
    else ReportStatus.CLEAN
  { status := overallStatus, report := allFlags }

/-! ## Raw model: optional fields, JS coercion and thrown errors -/

/-- A thrown JS exception: an explicit `throw new Error(msg)`, or the
implicit `TypeError` raised by calling a method of `undefined`. -/
inductive JSError where
  | thrown (msg : String)
  | typeError
deriving DecidableEq, Repr

/-- An employee record as raw JSON: any field may be absent. -/
structure RawEmployee where
  employee_id : Option String
  name : Option String
  department : Option String
  location : Option String
  salary : Option ℚ
  bonus : Option ℚ
  deductions : Option ℚ
deriving DecidableEq, Repr

/-- The `professional_tax` section with a possibly-absent `default` key. -/
structure RawPTTable where
  tables : List (String × List PTSlab)
  default : Option (List PTSlab)
deriving DecidableEq, Repr

/-- A rule table any of whose required sections may be absent (e.g. after
loading a truncated `tax_rules.json`). -/
structure RawRuleTable where
  social_security_percent : Option ℚ
  income_tax_slabs : Option (List Slab)
  professional_tax : Option RawPTTable
deriving DecidableEq, Repr

/-- JS coercion of a possibly-absent number used in arithmetic:
`undefined` becomes `NaN`. -/
def toJS : Option ℚ → JSNum
  | some q => JSNum.num q
  | none => JSNum.nan

/-- The JS `||` fallback on lookup results (an array, even an empty one, is
truthy, so only an absent key falls back). -/
def jsOrElse {α : Type} : Option α → Option α → Option α
  | some a, _ => some a
  | none, b => b

/-- `slabs.find(...)` over a gross pay that may be `NaN` (every comparison
against `NaN` is false, so no slab matches). -/
def rawFindSlab (grossPay : JSNum) : List Slab → Option Slab
  | [] => none
  | slab :: rest =>
    if grossPay.geJ (.num slab.min) && grossPay.leJ (.num slab.max) then some slab
    else rawFindSlab grossPay rest

/-- The same raw search over flat-amount slabs. -/
def rawFindPTSlab (grossPay : JSNum) : List PTSlab → Option PTSlab
  | [] => none
  | slab :: rest =>
    if grossPay.geJ (.num slab.min) && grossPay.leJ (.num slab.max) then some slab
    else rawFindPTSlab grossPay rest

/-- `calculateIncomeTax` over raw inputs: `slabs.find` throws a `TypeError`
when `slabs` is `undefined`. -/
def rawCalculateIncomeTax (grossPay : JSNum) :
    Option (List Slab) → Except JSError JSNum
  | none => .error .typeError
  | some slabs =>
    match rawFindSlab grossPay slabs with
    | some slab => .ok (grossPay.mul (.num slab.rate))
    | none => .ok (.num 0)

/-- `calculateSlabTax` over raw inputs. -/
def rawCalculateSlabTax (grossPay : JSNum) :
    Option (List PTSlab) → Except JSError JSNum
  | none => .error .typeError
  | some slabs =>
    match rawFindPTSlab grossPay slabs with
    | some slab => .ok (.num slab.tax)
    | none => .ok (.num 0)

/-- The result object of the raw calculator, with the breakdown fields
inlined. -/
structure RawNetPayResult where
  employee_id : Option String
  gross_pay : JSNum
  net_pay : JSNum
  company_tax : JSNum
  social_security : JSNum
  professional_tax : JSNum
  personal_deductions : JSNum
  total_deductions : JSNum
deriving DecidableEq, Repr

/-- `calculateNetPay` over raw inputs, with its two explicit guard throws
(`"Employee data is required."` when the employee is absent and
`"Tax rules are not loaded."` when `TAX_RULES.professional_tax` is falsy)
and JS numeric coercion everywhere else. -/
def rawCalculateNetPay (rules : RawRuleTable) (employee : Option RawEmployee) :
    Except JSError RawNetPayResult :=
  match employee with
  | none => .error (.thrown "Employee data is required.")
  | some e =>
    match rules.professional_tax with
    | none => .error (.thrown "Tax rules are not loaded.")
    | some pt =>
      let grossPay := (toJS e.salary).add (toJS e.bonus)
      match rawCalculateIncomeTax grossPay rules.income_tax_slabs with
      | .error err => .error err
      | .ok companyTax =>
        let socialSecurity := grossPay.mul (toJS rules.social_security_percent)
        let locationRules :=
          jsOrElse (e.location.bind (fun l => lookupLocation pt.tables l)) pt.default
        match rawCalculateSlabTax grossPay locationRules with
        | .error err => .error err
        | .ok professionalTax =>
          let personalDeductions := toJS e.deductions
          let totalDeductions :=
            ((companyTax.add socialSecurity).add professionalTax).add personalDeductions
          let netPay := grossPay.sub totalDeductions
          .ok { employee_id := e.employee_id
                gross_pay := grossPay
                net_pay := netPay
                company_tax := companyTax
                social_security := socialSecurity
                professional_tax := professionalTax
                personal_deductions := personalDeductions
                total_deductions := totalDeductions }

end Payroll

namespace Payroll

/-- C1: for every well-typed employee and loaded rule table, `calculateNetPay`
returns `gross_pay = salary + bonus`, `social_security = gross_pay *
social_security_percent`, `personal_deductions = employee.deductions`,
`total_deductions = company_tax + social_security + professional_tax +
personal_deductions`, and `net_pay = gross_pay - total_deductions`; a
negative net pay is an ordinary return value, not an error. -/
theorem calculateNetPay_formula :
    (∀ (rules : RuleTable) (e : Employee),
      (calculateNetPay rules e).gross_pay = e.salary + e.bonus ∧
      (calculateNetPay rules e).breakdown.social_security =
        (calculateNetPay rules e).gross_pay * rules.social_security_percent ∧
      (calculateNetPay rules e).breakdown.personal_deductions = e.deductions ∧
      (calculateNetPay rules e).breakdown.total_deductions =
        (calculateNetPay rules e).breakdown.company_tax +
        (calculateNetPay rules e).breakdown.social_security +
        (calculateNetPay rules e).breakdown.professional_tax +
        (calculateNetPay rules e).breakdown.personal_deductions ∧
      (calculateNetPay rules e).net_pay =
        (calculateNetPay rules e).gross_pay -
        (calculateNetPay rules e).breakdown.total_deductions) ∧
    (∃ (rules : RuleTable) (e : Employee), (calculateNetPay rules e).net_pay < 0) := by
  refine ⟨fun rules e => ⟨rfl, rfl, rfl, rfl, rfl⟩,
    ⟨⟨0, [], ⟨[], []⟩⟩, ⟨"E1", "N", "D", "L", 0, 0, 5⟩, ?_⟩⟩
  norm_num [calculateNetPay, calculateIncomeTax, calculateSlabTax, findSlab,
    findPTSlab, lookupLocation]

theorem findSlab_eq_none (g : ℚ) (slabs : List Slab) :
    findSlab g slabs = none ↔ ∀ s ∈ slabs, ¬(s.min ≤ g ∧ g ≤ s.max) := by
  induction slabs with
  | nil => simp [findSlab]
  | cons a rest ih =>
    rw [findSlab]
    by_cases ha : a.min ≤ g ∧ g ≤ a.max
    · rw [if_pos ha]
      constructor
      · intro h; cases h
      · intro h; exact absurd ha (h a (List.mem_cons_self a rest))
    · rw [if_neg ha, ih]
      constructor
      · intro h s hs
        rcases List.mem_cons.mp hs with rfl | hs2
        · exact ha
        · exact h s hs2
      · intro h s hs
        exact h s (List.mem_cons_of_mem a hs)

theorem findSlab_mem (g : ℚ) (slabs : List Slab) (s : Slab)
    (h : findSlab g slabs = some s) : s ∈ slabs ∧ s.min ≤ g ∧ g ≤ s.max := by
  induction slabs with
  | nil => simp [findSlab] at h
  | cons a rest ih =>
    by_cases ha : a.min ≤ g ∧ g ≤ a.max
    · rw [findSlab, if_pos ha] at h
      obtain rfl : a = s := by simpa using h
      exact ⟨List.mem_cons_self a rest, ha⟩
    · rw [findSlab, if_neg ha] at h
      obtain ⟨hm, hb⟩ := ih h
      exact ⟨List.mem_cons_of_mem a hm, hb⟩

theorem findPTSlab_eq_none (g : ℚ) (slabs : List PTSlab) :
    findPTSlab g slabs = none ↔ ∀ s ∈ slabs, ¬(s.min ≤ g ∧ g ≤ s.max) := by
  induction slabs with
  | nil => simp [findPTSlab]
  | cons a rest ih =>
    rw [findPTSlab]
    by_cases ha : a.min ≤ g ∧ g ≤ a.max
    · rw [if_pos ha]
      constructor
      · intro h; cases h
      · intro h; exact absurd ha (h a (List.mem_cons_self a rest))
    · rw [if_neg ha, ih]
      constructor
      · intro h s hs
        rcases List.mem_cons.mp hs with rfl | hs2
        · exact ha
        · exact h s hs2
      · intro h s hs
        exact h s (List.mem_cons_of_mem a hs)

theorem findPTSlab_mem (g : ℚ) (slabs : List PTSlab) (s : PTSlab)
    (h : findPTSlab g slabs = some s) : s ∈ slabs ∧ s.min ≤ g ∧ g ≤ s.max := by
  induction slabs with
  | nil => simp [findPTSlab] at h
  | cons a rest ih =>
    by_cases ha : a.min ≤ g ∧ g ≤ a.max
    · rw [findPTSlab, if_pos ha] at h
      obtain rfl : a = s := by simpa using h
      exact ⟨List.mem_cons_self a rest, ha⟩
    · rw [findPTSlab, if_neg ha] at h
      obtain ⟨hm, hb⟩ := ih h
      exact ⟨List.mem_cons_of_mem a hm, hb⟩

theorem findSlab_append_first (g : ℚ) (pre post : List Slab) (s : Slab)
    (h1 : s.min ≤ g) (h2 : g ≤ s.max)
    (hpre : ∀ s2 ∈ pre, ¬(s2.min ≤ g ∧ g ≤ s2.max)) :
    findSlab g (pre ++ s :: post) = some s := by
  induction pre with
  | nil => simp [findSlab, h1, h2]
  | cons a rest ih =>
    have ha := hpre a (List.mem_cons_self a rest)
    rw [List.cons_append, findSlab, if_neg ha]
    exact ih (fun x hx => hpre x (List.mem_cons_of_mem a hx))

theorem findPTSlab_append_first (g : ℚ) (pre post : List PTSlab) (s : PTSlab)
    (h1 : s.min ≤ g) (h2 : g ≤ s.max)
    (hpre : ∀ s2 ∈ pre, ¬(s2.min ≤ g ∧ g ≤ s2.max)) :
    findPTSlab g (pre ++ s :: post) = some s := by
  induction pre with
  | nil => simp [findPTSlab, h1, h2]
  | cons a rest ih =>
    have ha := hpre a (List.mem_cons_self a rest)
    rw [List.cons_append, findPTSlab, if_neg ha]
    exact ih (fun x hx => hpre x (List.mem_cons_of_mem a hx))

/-- C2: `company_tax` is `gross_pay * rate` of an income-tax slab whose
inclusive `[min,max]` range contains the gross pay, 0 when no slab
contains it; `professional_tax` selects the slab table keyed by the
employee's location, falls back to the `default` table when that key is
absent, and returns the flat `tax` amount of a containing slab by the same
inclusive rule, 0 when none matches. -/
theorem companyTax_professionalTax_slabs (rules : RuleTable) (e : Employee) :
    ((∀ s ∈ rules.income_tax_slabs,
        ¬(s.min ≤ e.salary + e.bonus ∧ e.salary + e.bonus ≤ s.max)) →
      (calculateNetPay rules e).breakdown.company_tax = 0) ∧
    ((∃ s ∈ rules.income_tax_slabs,
        s.min ≤ e.salary + e.bonus ∧ e.salary + e.bonus ≤ s.max) →
      ∃ s ∈ rules.income_tax_slabs,
        (s.min ≤ e.salary + e.bonus ∧ e.salary + e.bonus ≤ s.max) ∧
        (calculateNetPay rules e).breakdown.company_tax = (e.salary + e.bonus) * s.rate) ∧
    ((calculateNetPay rules e).breakdown.professional_tax =
      calculateSlabTax (e.salary + e.bonus)
        ((lookupLocation rules.professional_tax.tables e.location).getD
          rules.professional_tax.default)) ∧
    (lookupLocation rules.professional_tax.tables e.location = none →
      (calculateNetPay rules e).breakdown.professional_tax =
        calculateSlabTax (e.salary + e.bonus) rules.professional_tax.default) ∧
    (∀ slabs : List PTSlab,
      ((∀ s ∈ slabs, ¬(s.min ≤ e.salary + e.bonus ∧ e.salary + e.bonus ≤ s.max)) →
        calculateSlabTax (e.salary + e.bonus) slabs = 0) ∧
      ((∃ s ∈ slabs, s.min ≤ e.salary + e.bonus ∧ e.salary + e.bonus ≤ s.max) →
        ∃ s ∈ slabs, (s.min ≤ e.salary + e.bonus ∧ e.salary + e.bonus ≤ s.max) ∧
          calculateSlabTax (e.salary + e.bonus) slabs = s.tax)) := by
  refine ⟨?_, ?_, rfl, ?_, ?_⟩
  · intro hnone
    show calculateIncomeTax (e.salary + e.bonus) rules.income_tax_slabs = 0
    rw [calculateIncomeTax, (findSlab_eq_none _ _).mpr hnone]
  · rintro ⟨s0, hs0, hb0⟩
    cases hf : findSlab (e.salary + e.bonus) rules.income_tax_slabs with
    | none => exact absurd hb0 (((findSlab_eq_none _ _).mp hf) s0 hs0)
    | some s =>
      obtain ⟨hm, hb⟩ := findSlab_mem _ _ _ hf
      refine ⟨s, hm, hb, ?_⟩
      show calculateIncomeTax (e.salary + e.bonus) rules.income_tax_slabs = _
      rw [calculateIncomeTax, hf]
  · intro hnone
    show calculateSlabTax (e.salary + e.bonus)
        ((lookupLocation rules.professional_tax.tables e.location).getD
          rules.professional_tax.default) = _
    rw [hnone]
    rfl
  · intro slabs
    constructor
    · intro hnone
      rw [calculateSlabTax, (findPTSlab_eq_none _ _).mpr hnone]
    · rintro ⟨s0, hs0, hb0⟩
      cases hf : findPTSlab (e.salary + e.bonus) slabs with
      | none => exact absurd hb0 (((findPTSlab_eq_none _ _).mp hf) s0 hs0)
      | some s =>
        obtain ⟨hm, hb⟩ := findPTSlab_mem _ _ _ hf
        refine ⟨s, hm, hb, ?_⟩
        rw [calculateSlabTax, hf]

theorem companyTax_professionalTax_slabs_witness :
    ∃ s ∈ ([⟨0, 100, 1/10⟩] : List Slab),
      (s.min ≤ (40 : ℚ) + 10 ∧ (40 : ℚ) + 10 ≤ s.max) ∧
      (calculateNetPay ⟨0, [⟨0, 100, 1/10⟩], ⟨[], []⟩⟩
        ⟨"E1", "N", "D", "L", 40, 10, 0⟩).breakdown.company_tax =
        ((40 : ℚ) + 10) * s.rate := by
  refine (companyTax_professionalTax_slabs ⟨0, [⟨0, 100, 1/10⟩], ⟨[], []⟩⟩
    ⟨"E1", "N", "D", "L", 40, 10, 0⟩).2.1 ?_
  exact ⟨⟨0, 100, 1/10⟩, List.mem_singleton.mpr rfl, by norm_num⟩

/-- C10: for a gross pay contained in two or more slabs (overlap or shared
boundary), both the income-tax lookup and the professional-tax lookup apply
the earliest slab in configured array order: whenever every slab before `s`
fails the inclusive-range test and `s` passes it, the result is computed
from `s`, whatever comes after it. -/
theorem slab_first_match_wins (g : ℚ) :
    (∀ (pre post : List Slab) (s : Slab),
      s.min ≤ g → g ≤ s.max →
      (∀ s2 ∈ pre, ¬(s2.min ≤ g ∧ g ≤ s2.max)) →
      calculateIncomeTax g (pre ++ s :: post) = g * s.rate) ∧
    (∀ (pre post : List PTSlab) (s : PTSlab),
      s.min ≤ g → g ≤ s.max →
      (∀ s2 ∈ pre, ¬(s2.min ≤ g ∧ g ≤ s2.max)) →
      calculateSlabTax g (pre ++ s :: post) = s.tax) := by
  constructor
  · intro pre post s h1 h2 hpre
    rw [calculateIncomeTax, findSlab_append_first g pre post s h1 h2 hpre]
  · intro pre post s h1 h2 hpre
    rw [calculateSlabTax, findPTSlab_append_first g pre post s h1 h2 hpre]

theorem slab_first_match_wins_witness :
    calculateIncomeTax 75 ([⟨0, 50, 1/10⟩] ++ ⟨50, 100, 2/10⟩ :: [⟨60, 80, 3/10⟩]) =
      75 * (2/10) ∧
    calculateSlabTax 75 ([⟨0, 50, 10⟩] ++ ⟨50, 100, 20⟩ :: [⟨60, 80, 30⟩]) =
      (⟨50, 100, 20⟩ : PTSlab).tax := by
  constructor
  · exact (slab_first_match_wins 75).1 [⟨0, 50, 1/10⟩] [⟨60, 80, 3/10⟩] ⟨50, 100, 2/10⟩
      (by norm_num) (by norm_num)
      (by rintro s2 hs2; rcases List.mem_singleton.mp hs2 with rfl; norm_num)
  · exact (slab_first_match_wins 75).2 [⟨0, 50, 10⟩] [⟨60, 80, 30⟩] ⟨50, 100, 20⟩
      (by norm_num) (by norm_num)
      (by rintro s2 hs2; rcases List.mem_singleton.mp hs2 with rfl; norm_num)

/-- C8: the absolute-rule strategy emits an ANOMALY flag exactly when
`net_pay < 0` and, independently, a REVIEW flag exactly when
`bonus > salary * 2`; both checks can fire simultaneously and the result
carries between 0 and 2 flags. -/
theorem detectAbsoluteRules_rule (e : Employee) (pay : NetPayResult) :
    ((⟨FlagLevel.ANOMALY⟩ : Flag) ∈ detectAbsoluteRules e pay ↔ pay.net_pay < 0) ∧
    ((⟨FlagLevel.REVIEW⟩ : Flag) ∈ detectAbsoluteRules e pay ↔ e.bonus > e.salary * 2) ∧
    (detectAbsoluteRules e pay).length ≤ 2 ∧
    (pay.net_pay < 0 → e.bonus > e.salary * 2 →
      detectAbsoluteRules e pay = [⟨FlagLevel.ANOMALY⟩, ⟨FlagLevel.REVIEW⟩]) := by
  unfold detectAbsoluteRules
  by_cases h1 : pay.net_pay < 0 <;> by_cases h2 : e.bonus > e.salary * 2 <;>
    simp [h1, h2]

theorem detectAbsoluteRules_rule_witness :
    detectAbsoluteRules ⟨"E1", "N", "D", "L", 10, 30, 0⟩ ⟨"E1", 40, -1, ⟨0, 0, 0, 0, 41⟩⟩ =
      [⟨FlagLevel.ANOMALY⟩, ⟨FlagLevel.REVIEW⟩] :=
  (detectAbsoluteRules_rule ⟨"E1", "N", "D", "L", 10, 30, 0⟩
    ⟨"E1", 40, -1, ⟨0, 0, 0, 0, 41⟩⟩).2.2.2 (by norm_num) (by norm_num)

/-- The zeta-reduced shape of `detectPeerVariance`. -/
theorem detectPeerVariance_eq (e : Employee) (batch : List Employee) :
    detectPeerVariance e batch =
      if (peersOf e batch).length < 1 then []
      else if e.salary > ((peersOf e batch).foldl (fun acc p => acc + p.salary) 0 /
          ((peersOf e batch).length : ℚ)) * 3 then [⟨FlagLevel.ANOMALY⟩]
      else if e.salary > ((peersOf e batch).foldl (fun acc p => acc + p.salary) 0 /
          ((peersOf e batch).length : ℚ)) * 1.5 then [⟨FlagLevel.REVIEW⟩]
      else [] := rfl

/-- C7: with the peer group being all other batch members (excluded by
`employee_id`) sharing the department and location by exact string
equality, the peer-variance strategy emits no flags on an empty peer group;
otherwise exactly one ANOMALY flag when salary exceeds 3 times the peer
average, exactly one REVIEW flag when it exceeds 1.5 times but not 3 times,
and no flags otherwise — never more than one flag. -/
theorem detectPeerVariance_rule (e : Employee) (batch : List Employee) :
    (peersOf e batch = [] → detectPeerVariance e batch = []) ∧
    (detectPeerVariance e batch).length ≤ 1 ∧
    (∀ avg : ℚ, peersOf e batch ≠ [] →
      avg = (peersOf e batch).foldl (fun acc p => acc + p.salary) 0 /
            ((peersOf e batch).length : ℚ) →
      ((e.salary > avg * 3 → detectPeerVariance e batch = [⟨FlagLevel.ANOMALY⟩]) ∧
       (¬(e.salary > avg * 3) → e.salary > avg * 1.5 →
         detectPeerVariance e batch = [⟨FlagLevel.REVIEW⟩]) ∧
       (¬(e.salary > avg * 3) → ¬(e.salary > avg * 1.5) →
         detectPeerVariance e batch = []))) := by
  refine ⟨?_, ?_, ?_⟩
  · intro h
    rw [detectPeerVariance_eq, h]
    simp
  · rw [detectPeerVariance_eq]
    split
    · simp
    · split
      · simp
      · split <;> simp
  · intro avg hne havg
    have hlen : ¬((peersOf e batch).length < 1) := by
      cases hpg : peersOf e batch with
      | nil => exact absurd hpg hne
      | cons a l => rw [List.length_cons]; omega
    subst havg
    refine ⟨?_, ?_, ?_⟩
    · intro h3
      rw [detectPeerVariance_eq, if_neg hlen, if_pos h3]
    · intro h3 h15
      rw [detectPeerVariance_eq, if_neg hlen, if_neg h3, if_pos h15]
    · intro h3 h15
      rw [detectPeerVariance_eq, if_neg hlen, if_neg h3, if_neg h15]

theorem detectPeerVariance_rule_witness :
    detectPeerVariance ⟨"E1", "N", "D", "L", 100, 0, 0⟩
      [⟨"E1", "N", "D", "L", 100, 0, 0⟩, ⟨"E2", "M", "D", "L", 10, 0, 0⟩] =
      [⟨FlagLevel.ANOMALY⟩] := by
  have hpg : peersOf ⟨"E1", "N", "D", "L", 100, 0, 0⟩
      [⟨"E1", "N", "D", "L", 100, 0, 0⟩, ⟨"E2", "M", "D", "L", 10, 0, 0⟩] =
      [⟨"E2", "M", "D", "L", 10, 0, 0⟩] := by
    norm_num +decide [peersOf]
  refine ((detectPeerVariance_rule _ _).2.2 10 (by rw [hpg]; simp) ?_).1 (by norm_num)
  rw [hpg]
  norm_num [List.foldl]

/-- The zeta-reduced shape of `detectHistoricalVariance`. -/
theorem detectHistoricalVariance_eq (e : Employee) (pay : NetPayResult)
    (db : List HistoryRecord) :
    detectHistoricalVariance e pay db =
      if (filterHistory e.employee_id db).length < 3 then []
      else
        if (JSNum.div
            (.num (pay.net_pay -
              ((filterHistory e.employee_id db).take 6).foldl
                (fun acc record => acc + record.net_pay) 0 /
              (((filterHistory e.employee_id db).take 6).length : ℚ)))
            (.num (((filterHistory e.employee_id db).take 6).foldl
                (fun acc record => acc + record.net_pay) 0 /
              (((filterHistory e.employee_id db).take 6).length : ℚ)))).absJ.gtJ
            (.num 0.5) then [⟨FlagLevel.ANOMALY⟩]
        else if (JSNum.div
            (.num (pay.net_pay -
              ((filterHistory e.employee_id db).take 6).foldl
                (fun acc record => acc + record.net_pay) 0 /
              (((filterHistory e.employee_id db).take 6).length : ℚ)))
            (.num (((filterHistory e.employee_id db).take 6).foldl
                (fun acc record => acc + record.net_pay) 0 /
              (((filterHistory e.employee_id db).take 6).length : ℚ)))).absJ.gtJ
            (.num 0.2) then [⟨FlagLevel.REVIEW⟩]
        else [] := rfl

theorem JSNum.div_num_of_ne (a b : ℚ) (hb : b ≠ 0) :
    JSNum.div (.num a) (.num b) = .num (a / b) := by
  simp [JSNum.div, hb]

theorem JSNum.gtJ_num_num (x c : ℚ) : JSNum.gtJ (.num x) (.num c) = true ↔ c < x := by
  by_cases h : c < x <;> simp [JSNum.gtJ, h]

/-- C6: the historical-variance strategy emits no flags on fewer than 3
matching history records; otherwise, with `avg` the mean net pay of the
first up-to-6 matching records in store order and
`pc = (current - avg) / avg` (for a nonzero average), it emits exactly one
ANOMALY flag when `|pc| > 0.5`, exactly one REVIEW flag when
`0.2 < |pc| ≤ 0.5`, and no flags when `|pc| ≤ 0.2`; it never emits more
than one flag. -/
theorem detectHistoricalVariance_rule (e : Employee) (pay : NetPayResult)
    (db : List HistoryRecord) :
    ((filterHistory e.employee_id db).length < 3 →
      detectHistoricalVariance e pay db = []) ∧
    (detectHistoricalVariance e pay db).length ≤ 1 ∧
    (∀ avg : ℚ, 3 ≤ (filterHistory e.employee_id db).length →
      avg = ((filterHistory e.employee_id db).take 6).foldl
              (fun acc record => acc + record.net_pay) 0 /
            (((filterHistory e.employee_id db).take 6).length : ℚ) →
      avg ≠ 0 →
      ((0.5 < |(pay.net_pay - avg) / avg| →
        detectHistoricalVariance e pay db = [⟨FlagLevel.ANOMALY⟩]) ∧
       (¬(0.5 < |(pay.net_pay - avg) / avg|) → 0.2 < |(pay.net_pay - avg) / avg| →
        detectHistoricalVariance e pay db = [⟨FlagLevel.REVIEW⟩]) ∧
       (¬(0.5 < |(pay.net_pay - avg) / avg|) → ¬(0.2 < |(pay.net_pay - avg) / avg|) →
        detectHistoricalVariance e pay db = []))) := by
  refine ⟨?_, ?_, ?_⟩
  · intro h
    rw [detectHistoricalVariance_eq, if_pos h]
  · rw [detectHistoricalVariance_eq]
    split
    · simp
    · split
      · simp
      · split <;> simp
  · intro avg h3 havg hne
    have hlen : ¬((filterHistory e.employee_id db).length < 3) := by omega
    have hdiv : JSNum.div (.num (pay.net_pay - avg)) (.num avg) =
        .num ((pay.net_pay - avg) / avg) := JSNum.div_num_of_ne _ _ hne
    refine ⟨?_, ?_, ?_⟩
    · intro h05
      rw [detectHistoricalVariance_eq, if_neg hlen, ← havg, hdiv]
      simp only [JSNum.absJ]
      exact if_pos ((JSNum.gtJ_num_num _ _).mpr h05)
    · intro h05 h02
      rw [detectHistoricalVariance_eq, if_neg hlen, ← havg, hdiv]
      simp only [JSNum.absJ]
      rw [if_neg (fun hc => h05 ((JSNum.gtJ_num_num _ _).mp hc))]
      exact if_pos ((JSNum.gtJ_num_num _ _).mpr h02)
    · intro h05 h02
      rw [detectHistoricalVariance_eq, if_neg hlen, ← havg, hdiv]
      simp only [JSNum.absJ]
      rw [if_neg (fun hc => h05 ((JSNum.gtJ_num_num _ _).mp hc))]
      exact if_neg (fun hc => h02 ((JSNum.gtJ_num_num _ _).mp hc))

theorem detectHistoricalVariance_rule_witness :
    detectHistoricalVariance ⟨"E1", "N", "D", "L", 0, 0, 0⟩
      ⟨"E1", 200, 200, ⟨0, 0, 0, 0, 0⟩⟩
      [⟨"E1", 100⟩, ⟨"E1", 100⟩, ⟨"E1", 100⟩] = [⟨FlagLevel.ANOMALY⟩] := by
  have hfh : filterHistory "E1" [⟨"E1", 100⟩, ⟨"E1", 100⟩, ⟨"E1", 100⟩] =
      [(⟨"E1", 100⟩ : HistoryRecord), ⟨"E1", 100⟩, ⟨"E1", 100⟩] := by
    norm_num +decide [filterHistory]
  refine ((detectHistoricalVariance_rule _ _ _).2.2 100 (by rw [hfh]; simp) ?_
    (by norm_num)).1 (by norm_num)
  rw [hfh]
  norm_num [List.take, List.foldl]

/-- C4 counterexample: an employee with exactly 3 matching history records
whose net pays average to 0 and a nonzero proposed net pay makes the
historical-variance strategy emit an ANOMALY flag — the undefined/infinite
ratio is not guarded and not suppressed. -/
theorem historicalVariance_zero_average_counterexample :
    (filterHistory "E1" [⟨"E1", 100⟩, ⟨"E1", -50⟩, ⟨"E1", -50⟩]).length = 3 ∧
    ((filterHistory "E1" [⟨"E1", 100⟩, ⟨"E1", -50⟩, ⟨"E1", -50⟩]).take 6).foldl
        (fun acc record => acc + record.net_pay) 0 = 0 ∧
    detectHistoricalVariance ⟨"E1", "N", "D", "L", 0, 0, 0⟩
      ⟨"E1", 1000, 1000, ⟨0, 0, 0, 0, 0⟩⟩
      [⟨"E1", 100⟩, ⟨"E1", -50⟩, ⟨"E1", -50⟩] = [⟨FlagLevel.ANOMALY⟩] := by
  have hfh : filterHistory "E1" [⟨"E1", 100⟩, ⟨"E1", -50⟩, ⟨"E1", -50⟩] =
      [(⟨"E1", 100⟩ : HistoryRecord), ⟨"E1", -50⟩, ⟨"E1", -50⟩] := by
    norm_num +decide [filterHistory]
  refine ⟨by rw [hfh]; rfl, by rw [hfh]; norm_num [List.take, List.foldl], ?_⟩
  rw [detectHistoricalVariance_eq, hfh]
  norm_num [List.take, List.foldl, JSNum.div, JSNum.absJ, JSNum.gtJ]

/-- C4 (amended): with at least 3 matching history records whose taken
(up to 6) records have mean net pay 0, the historical-variance strategy is
not guarded: a nonzero current net pay yields an infinite ratio and one
ANOMALY flag, and only a zero current net pay (NaN ratio, every comparison
false) yields no flags. -/
theorem historicalVariance_zero_average (e : Employee) (pay : NetPayResult)
    (db : List HistoryRecord)
    (h3 : 3 ≤ (filterHistory e.employee_id db).length)
    (hsum : ((filterHistory e.employee_id db).take 6).foldl
        (fun acc record => acc + record.net_pay) 0 = 0) :
    (pay.net_pay ≠ 0 → detectHistoricalVariance e pay db = [⟨FlagLevel.ANOMALY⟩]) ∧
    (pay.net_pay = 0 → detectHistoricalVariance e pay db = []) := by
  have hlen : ¬((filterHistory e.employee_id db).length < 3) := by omega
  have havg : ((filterHistory e.employee_id db).take 6).foldl
      (fun acc record => acc + record.net_pay) 0 /
      (((filterHistory e.employee_id db).take 6).length : ℚ) = 0 := by
    rw [hsum, zero_div]
  constructor
  · intro hnz
    rw [detectHistoricalVariance_eq, if_neg hlen, havg, sub_zero]
    rcases lt_trichotomy pay.net_pay 0 with hneg | hz | hpos
    · rw [show JSNum.div (.num pay.net_pay) (.num 0) = .negInf by
        simp [JSNum.div, hneg, not_lt_of_gt hneg]]
      rfl
    · exact absurd hz hnz
    · rw [show JSNum.div (.num pay.net_pay) (.num 0) = .posInf by
        simp [JSNum.div, hpos]]
      rfl
  · intro hz
    rw [detectHistoricalVariance_eq, if_neg hlen, havg, sub_zero, hz]
    rw [show JSNum.div (.num 0) (.num 0) = .nan by simp [JSNum.div]]
    rfl

theorem historicalVariance_zero_average_witness :
    detectHistoricalVariance ⟨"E2", "N", "D", "L", 0, 0, 0⟩
      ⟨"E2", 7, 7, ⟨0, 0, 0, 0, 0⟩⟩
      [⟨"E2", 50⟩, ⟨"E2", -25⟩, ⟨"E2", -25⟩] = [⟨FlagLevel.ANOMALY⟩] := by
  have hfh : filterHistory "E2" [⟨"E2", 50⟩, ⟨"E2", -25⟩, ⟨"E2", -25⟩] =
      [(⟨"E2", 50⟩ : HistoryRecord), ⟨"E2", -25⟩, ⟨"E2", -25⟩] := by
    norm_num +decide [filterHistory]
  exact (historicalVariance_zero_average _ _ _ (by rw [hfh]; simp)
    (by rw [hfh]; norm_num [List.take, List.foldl])).1 (by norm_num)

theorem anyAnomalyFlag_iff (flags : List Flag) :
    flags.any (fun fl => fl.level == FlagLevel.ANOMALY) = true ↔
      (⟨FlagLevel.ANOMALY⟩ : Flag) ∈ flags := by
  rw [List.any_eq_true]
  constructor
  · rintro ⟨fl, hm, hl⟩
    cases fl with
    | mk level =>
      have hlv : level = FlagLevel.ANOMALY := by simpa using hl
      subst hlv
      exact hm
  · intro hm
    exact ⟨⟨FlagLevel.ANOMALY⟩, hm, by simp⟩

theorem allFlagGroups_anyAnomaly (rules : RuleTable) (hist : List HistoryRecord)
    (batch : List Employee) (l : List Employee) :
    anyAnomaly (allFlagGroups rules hist batch l) = true ↔
      ∃ e ∈ l, (⟨FlagLevel.ANOMALY⟩ : Flag) ∈ employeeFlags rules hist batch e := by
  unfold anyAnomaly
  induction l with
  | nil => simp [allFlagGroups]
  | cons e rest ih =>
    simp only [allFlagGroups]
    split
    · rename_i hf
      rw [List.any_cons, Bool.or_eq_true, ih]
      constructor
      · rintro (h | ⟨x, hx, hmx⟩)
        · exact ⟨e, List.mem_cons_self e rest, (anyAnomalyFlag_iff _).mp h⟩
        · exact ⟨x, List.mem_cons_of_mem e hx, hmx⟩
      · rintro ⟨x, hx, hmx⟩
        rcases List.mem_cons.mp hx with rfl | hx2
        · exact Or.inl ((anyAnomalyFlag_iff _).mpr hmx)
        · exact Or.inr ⟨x, hx2, hmx⟩
    · rename_i hf
      rw [ih]
      constructor
      · rintro ⟨x, hx, hmx⟩
        exact ⟨x, List.mem_cons_of_mem e hx, hmx⟩
      · rintro ⟨x, hx, hmx⟩
        rcases List.mem_cons.mp hx with rfl | hx2
        · have hnil : employeeFlags rules hist batch x = [] := by
            cases hfe : employeeFlags rules hist batch x with
            | nil => rfl
            | cons a l2 => exact absurd (by rw [hfe]; simp) hf
          rw [hnil] at hmx
          cases hmx
        · exact ⟨x, hx2, hmx⟩

theorem allFlagGroups_eq_nil (rules : RuleTable) (hist : List HistoryRecord)
    (batch : List Employee) (l : List Employee) :
    allFlagGroups rules hist batch l = [] ↔
      ∀ e ∈ l, employeeFlags rules hist batch e = [] := by
  induction l with
  | nil => simp [allFlagGroups]
  | cons e rest ih =>
    simp only [allFlagGroups]
    split
    · rename_i hf
      constructor
      · intro h; cases h
      · intro h
        have hnil := h e (List.mem_cons_self e rest)
        rw [hnil] at hf
        simp at hf
    · rename_i hf
      rw [ih]
      constructor
      · intro h x hx
        rcases List.mem_cons.mp hx with rfl | hx2
        · cases hfe : employeeFlags rules hist batch x with
          | nil => rfl
          | cons a l2 => exact absurd (by rw [hfe]; simp) hf
        · exact h x hx2
      · intro h x hx
        exact h x (List.mem_cons_of_mem e hx)

/-- C3: the report status of `detectAnomalies` is ANOMALY_DETECTED exactly
when some employee's emitted flag list contains an ANOMALY flag; otherwise
REVIEW_REQUIRED exactly when at least one flag was emitted for some
employee; otherwise CLEAN. -/
theorem detectAnomalies_status (rules : RuleTable) (historyDB : List HistoryRecord)
    (batch : List Employee) :
    ((detectAnomalies rules historyDB batch).status = ReportStatus.ANOMALY_DETECTED ↔
      ∃ e ∈ batch, (⟨FlagLevel.ANOMALY⟩ : Flag) ∈ employeeFlags rules historyDB batch e) ∧
    ((detectAnomalies rules historyDB batch).status = ReportStatus.REVIEW_REQUIRED ↔
      ¬(∃ e ∈ batch, (⟨FlagLevel.ANOMALY⟩ : Flag) ∈ employeeFlags rules historyDB batch e) ∧
      ∃ e ∈ batch, employeeFlags rules historyDB batch e ≠ []) ∧
    ((detectAnomalies rules historyDB batch).status = ReportStatus.CLEAN ↔
      ∀ e ∈ batch, employeeFlags rules historyDB batch e = []) := by
  have hA := allFlagGroups_anyAnomaly rules historyDB batch batch
  have hN := allFlagGroups_eq_nil rules historyDB batch batch
  have hs : (detectAnomalies rules historyDB batch).status =
      (if anyAnomaly (allFlagGroups rules historyDB batch batch) = true
        then ReportStatus.ANOMALY_DETECTED
        else if (allFlagGroups rules historyDB batch batch).length > 0
        then ReportStatus.REVIEW_REQUIRED
        else ReportStatus.CLEAN) := rfl
  rw [hs]
  by_cases h1 : anyAnomaly (allFlagGroups rules historyDB batch batch) = true
  · rw [if_pos h1]
    obtain ⟨e0, he0, hm0⟩ := hA.mp h1
    refine ⟨⟨fun _ => hA.mp h1, fun _ => rfl⟩,
      iff_of_false (by decide) (fun h => h.1 (hA.mp h1)),
      iff_of_false (by decide) (fun hall => ?_)⟩
    exact absurd (hall e0 he0 ▸ hm0) (List.not_mem_nil _)
  · rw [if_neg h1]
    by_cases h2 : (allFlagGroups rules historyDB batch batch).length > 0
    · rw [if_pos h2]
      have hne : allFlagGroups rules historyDB batch batch ≠ [] := by
        intro hnil
        rw [hnil] at h2
        simp at h2
      have hex2 : ∃ e ∈ batch, employeeFlags rules historyDB batch e ≠ [] := by
        by_contra hc
        push_neg at hc
        exact hne (hN.mpr hc)
      refine ⟨iff_of_false (by decide) (fun hx => h1 (hA.mpr hx)),
        ⟨fun _ => ⟨fun hx => h1 (hA.mpr hx), hex2⟩, fun _ => rfl⟩,
        iff_of_false (by decide) (fun hall => hne (hN.mpr hall))⟩
    · rw [if_neg h2]
      have hnil : allFlagGroups rules historyDB batch batch = [] := by
        cases hg : allFlagGroups rules historyDB batch batch with
        | nil => rfl
        | cons a l =>
          rw [hg, List.length_cons] at h2
          omega
      refine ⟨iff_of_false (by decide) (fun hx => h1 (hA.mpr hx)),
        iff_of_false (by decide) (fun h => ?_),
        ⟨fun _ => hN.mp hnil, fun _ => rfl⟩⟩
      obtain ⟨_, e0, he0, hne0⟩ := h
      exact hne0 (hN.mp hnil e0 he0)

theorem detectAnomalies_status_witness :
    (detectAnomalies ⟨0, [], ⟨[], []⟩⟩ [] [⟨"E1", "N", "D", "L", 0, 0, 5⟩]).status =
      ReportStatus.ANOMALY_DETECTED := by
  refine (detectAnomalies_status ⟨0, [], ⟨[], []⟩⟩ [] [⟨"E1", "N", "D", "L", 0, 0, 5⟩]).1.mpr
    ⟨⟨"E1", "N", "D", "L", 0, 0, 5⟩, by simp, ?_⟩
  have hflags : employeeFlags ⟨0, [], ⟨[], []⟩⟩ [] [⟨"E1", "N", "D", "L", 0, 0, 5⟩]
      ⟨"E1", "N", "D", "L", 0, 0, 5⟩ = [⟨FlagLevel.ANOMALY⟩] := by
    norm_num +decide [employeeFlags, detectHistoricalVariance, detectPeerVariance,
      detectAbsoluteRules, filterHistory, peersOf, calculateNetPay, calculateIncomeTax,
      calculateSlabTax, findSlab, findPTSlab, lookupLocation]
  rw [hflags]
  simp

theorem JSNum.nan_add (b : JSNum) : JSNum.nan.add b = .nan := by cases b <;> rfl

theorem JSNum.add_nan (a : JSNum) : a.add .nan = .nan := by cases a <;> rfl

theorem JSNum.nan_mul (b : JSNum) : JSNum.nan.mul b = .nan := by cases b <;> rfl

theorem JSNum.mul_nan (a : JSNum) : a.mul .nan = .nan := by cases a <;> rfl

theorem JSNum.sub_nan (a : JSNum) : a.sub .nan = .nan := by cases a <;> rfl

theorem rawFindSlab_nan (slabs : List Slab) : rawFindSlab .nan slabs = none := by
  induction slabs with
  | nil => rfl
  | cons a rest ih => simp [rawFindSlab, JSNum.geJ, ih]

theorem rawFindPTSlab_nan (slabs : List PTSlab) : rawFindPTSlab .nan slabs = none := by
  induction slabs with
  | nil => rfl
  | cons a rest ih => simp [rawFindPTSlab, JSNum.geJ, ih]

/-- C5 counterexample: with `social_security_percent` missing and every
other section present, `calculateNetPay` raises no error at all: it
returns a result whose social security, total deductions and net pay are
`NaN`. -/
theorem missing_social_security_percent_no_error :
    rawCalculateNetPay ⟨none, some [], some ⟨[], some []⟩⟩
      (some ⟨some "E1", some "N", some "D", some "L", some 10, some 5, some 2⟩) =
    .ok ⟨some "E1", .num (10 + 5), .nan, .num 0, .nan, .num 0, .num 2, .nan⟩ := rfl

/-- C5 (amended): `calculateNetPay` throws its explicit error when the
employee is absent or when `professional_tax` is missing; a missing
`income_tax_slabs` surfaces only as an implicit `TypeError` (from calling
`find` on `undefined`); and a missing `social_security_percent` raises no
error at all — the call returns a result whose `social_security` and
`net_pay` are `NaN`. -/
theorem rawCalculateNetPay_guards (rules : RawRuleTable) (e : RawEmployee) :
    (rawCalculateNetPay rules none = .error (.thrown "Employee data is required.")) ∧
    (rules.professional_tax = none →
      rawCalculateNetPay rules (some e) = .error (.thrown "Tax rules are not loaded.")) ∧
    (∀ pt, rules.professional_tax = some pt → rules.income_tax_slabs = none →
      rawCalculateNetPay rules (some e) = .error .typeError) ∧
    (∀ pt slabs locationRules, rules.professional_tax = some pt →
      rules.income_tax_slabs = some slabs →
      rules.social_security_percent = none →
      jsOrElse (e.location.bind (fun l => lookupLocation pt.tables l)) pt.default =
        some locationRules →
      ∃ r, rawCalculateNetPay rules (some e) = .ok r ∧
        r.social_security = JSNum.nan ∧ r.net_pay = JSNum.nan) := by
  refine ⟨rfl, ?_, ?_, ?_⟩
  · intro hpt
    rw [rawCalculateNetPay, hpt]
  · intro pt hpt hslabs
    rw [rawCalculateNetPay, hpt, hslabs]
    rfl
  · intro pt slabs locationRules hpt hslabs hssp hloc
    rw [rawCalculateNetPay, hpt]
    simp only [hslabs, hssp, hloc, rawCalculateIncomeTax, rawCalculateSlabTax]
    cases hf1 : rawFindSlab ((toJS e.salary).add (toJS e.bonus)) slabs with
    | none =>
      cases hf2 : rawFindPTSlab ((toJS e.salary).add (toJS e.bonus)) locationRules with
      | none =>
        exact ⟨_, rfl, JSNum.mul_nan _, by
          simp [toJS, JSNum.mul_nan, JSNum.add_nan, JSNum.nan_add, JSNum.sub_nan]⟩
      | some s =>
        exact ⟨_, rfl, JSNum.mul_nan _, by
          simp [toJS, JSNum.mul_nan, JSNum.add_nan, JSNum.nan_add, JSNum.sub_nan]⟩
    | some s =>
      cases hf2 : rawFindPTSlab ((toJS e.salary).add (toJS e.bonus)) locationRules with
      | none =>
        exact ⟨_, rfl, JSNum.mul_nan _, by
          simp [toJS, JSNum.mul_nan, JSNum.add_nan, JSNum.nan_add, JSNum.sub_nan]⟩
      | some s2 =>
        exact ⟨_, rfl, JSNum.mul_nan _, by
          simp [toJS, JSNum.mul_nan, JSNum.add_nan, JSNum.nan_add, JSNum.sub_nan]⟩

theorem rawCalculateNetPay_guards_witness :
    rawCalculateNetPay ⟨some (1/10), some [], none⟩
      (some ⟨some "E1", some "N", some "D", some "L", some 10, some 5, some 2⟩) =
      .error (.thrown "Tax rules are not loaded.") ∧
    rawCalculateNetPay ⟨some (1/10), none, some ⟨[], some []⟩⟩
      (some ⟨some "E1", some "N", some "D", some "L", some 10, some 5, some 2⟩) =
      .error .typeError ∧
    (∃ r, rawCalculateNetPay ⟨none, some [], some ⟨[], some []⟩⟩
      (some ⟨some "E9", some "N", some "D", some "L", some 1, some 2, some 3⟩) = .ok r ∧
      r.social_security = JSNum.nan ∧ r.net_pay = JSNum.nan) := by
  refine ⟨(rawCalculateNetPay_guards ⟨some (1/10), some [], none⟩ _).2.1 rfl,
    (rawCalculateNetPay_guards ⟨some (1/10), none, some ⟨[], some []⟩⟩ _).2.2.1
      ⟨[], some []⟩ rfl rfl,
    (rawCalculateNetPay_guards ⟨none, some [], some ⟨[], some []⟩⟩ _).2.2.2
      ⟨[], some []⟩ [] [] rfl rfl rfl rfl⟩

/-- C9 counterexample: an employee record with `salary` absent is not
rejected: `calculateNetPay` silently coerces the missing field to `NaN`
and returns a result whose gross and net pay are `NaN`. -/
theorem missing_salary_silently_coerced :
    rawCalculateNetPay
      ⟨some (1/10), some [⟨0, 1000000, 1/10⟩], some ⟨[], some [⟨0, 1000000, 200⟩]⟩⟩
      (some ⟨some "E2", some "N", some "D", some "L", none, some 5, some 2⟩) =
    .ok ⟨some "E2", .nan, .nan, .num 0, .nan, .num 0, .num 2, .nan⟩ := rfl

/-- C9 (amended): for any rule table whose sections are present and resolve
to a usable location table, an employee record whose `salary` field is
absent is not rejected with an error: the call succeeds and returns a
result whose `gross_pay` and `net_pay` are `NaN`. -/
theorem rawCalculateNetPay_missing_salary (rules : RawRuleTable) (e : RawEmployee)
    (pt : RawPTTable) (slabs : List Slab) (locationRules : List PTSlab)
    (hpt : rules.professional_tax = some pt)
    (hslabs : rules.income_tax_slabs = some slabs)
    (hloc : jsOrElse (e.location.bind (fun l => lookupLocation pt.tables l)) pt.default =
      some locationRules)
    (hsal : e.salary = none) :
    ∃ r, rawCalculateNetPay rules (some e) = .ok r ∧
      r.gross_pay = JSNum.nan ∧ r.net_pay = JSNum.nan := by
  have hg : (toJS e.salary).add (toJS e.bonus) = .nan := by
    rw [hsal]
    exact JSNum.nan_add _
  rw [rawCalculateNetPay, hpt]
  simp only [hslabs, hloc, hg, rawCalculateIncomeTax, rawCalculateSlabTax,
    rawFindSlab_nan, rawFindPTSlab_nan]
  exact ⟨_, rfl, rfl, by
    simp [JSNum.nan_mul, JSNum.add_nan, JSNum.nan_add, JSNum.sub_nan]⟩

theorem rawCalculateNetPay_missing_salary_witness :
    ∃ r, rawCalculateNetPay ⟨some 1, some [], some ⟨[], some []⟩⟩
      (some ⟨some "E3", some "N", some "D", some "L", none, some 1, some 1⟩) = .ok r ∧
      r.gross_pay = JSNum.nan ∧ r.net_pay = JSNum.nan :=
  rawCalculateNetPay_missing_salary ⟨some 1, some [], some ⟨[], some []⟩⟩
    ⟨some "E3", some "N", some "D", some "L", none, some 1, some 1⟩
    ⟨[], some []⟩ [] [] rfl rfl rfl rfl

end Payroll
